import Mathlib

/-!
Shallow embedding of the admin-revoker tool (cmd/admin-revoker/main.go):
the revocation orchestrator that validates a reason code, looks up
certificate records inside a local transaction, calls the remote
registration authority to revoke, and commits or rolls back.

External collaborators (the SQL store, the x509 parser, the remote RA/SA
clients, the OS user lookup) are modelled as an explicit environment; every
observable side effect of a run is recorded in an event trace.
-/

/-- A parsed x509 certificate, opaque to the orchestrator: it is only
handed to the remote revocation call. -/
structure Cert where
  id : Nat
deriving DecidableEq, Repr

/-- The stored DER bytes of a certificate, as seen through
x509.ParseCertificate: either they decode to a certificate or parsing
fails with an error message. -/
inductive DERBytes where
  | wellFormed (c : Cert)
  | malformed (msg : String)
deriving DecidableEq, Repr

/-- Embeds x509.ParseCertificate(certObj.DER). -/
def parseCertificate : DERBytes → Except String Cert
  | .wellFormed c => .ok c
  | .malformed m => .error m

/-- A row of the certificates table: serial, DER bytes, owning
registration ID. -/
structure CertRecord where
  serial : String
  der : DERBytes
  registrationID : Int
deriving DecidableEq, Repr

/-- Result of sac.RevokeAuthorizationsByDomain: either an error, or the
pair (final auths revoked, pending auths revoked). -/
inductive AuthResult where
  | failure (msg : String)
  | success (authsRevoked : Int) (pendingAuthsRevoked : Int)
deriving DecidableEq, Repr

/-- One observable side effect of a run: local transaction events, store
reads, remote calls (with their recorded result) and audit log lines. -/
inductive Event where
  | beginTx
  | commitTx
  | rollbackTx
  | getRegistration (regID : Int) (found : Bool)
  | selectCertificate (serial : String)
  | selectByRegistration (regID : Int)
  | remoteRevoke (cert : Cert) (reason : Int) (admin : String) (result : Option String)
  | remoteRevokeAuths (domain : String) (result : AuthResult)
  | auditLog (msg : String)
deriving DecidableEq, Repr

/-- The environment: the certificate store contents, the set of existing
registrations, the behaviour of the remote revocation authority
(none means success, some msg means error), the storage authority
authorization-revocation behaviour, and the OS user lookup
(userName together with a possible lookup error userErr). -/
structure Env where
  store : List CertRecord
  registrations : List Int
  remote : Cert → Int → String → Option String
  revokeAuthsByDomain : String → AuthResult
  userName : String
  userErr : Option String

/-- Typed failures the orchestrator can return (the Go code returns these
as error values). The invalidReason constructor is the typed error the
spec design calls for; whether the code ever produces it is settled by
the theorems. -/
inductive RevErr where
  | notFound (msg : String)
  | parseError (msg : String)
  | remoteError (msg : String)
  | invalidReason
deriving DecidableEq, Repr

/-- Outcome of a run: normal success, a returned error, or a Go panic. -/
inductive Outcome where
  | ok
  | err (e : RevErr)
  | panicked (msg : String)
deriving DecidableEq, Repr

/-- Embeds sa.SelectCertificate(tx, WHERE serial, serial): first row of
the store with that serial, with none standing for sql.ErrNoRows. -/
def selectCertificate (env : Env) (serial : String) : Option CertRecord :=
  env.store.find? (fun r => r.serial == serial)

/-- Modelled from the spec: the revocation.ReasonToString registry (its
source is outside this repository; the spec fixes its domain as the codes
0 to 10 minus the reserved 7, each with a unique human-readable label
from the standard CRL reason taxonomy). -/
def reasonToStringMap : List (Int × String) :=
  [(0, "unspecified"), (1, "keyCompromise"), (2, "cACompromise"),
   (3, "affiliationChanged"), (4, "superseded"), (5, "cessationOfOperation"),
   (6, "certificateHold"), (8, "removeFromCRL"), (9, "privilegeWithdrawn"),
   (10, "aACompromise")]

/-- Go map lookup revocation.ReasonToString[code] (zero value for an
absent key). -/
def reasonToString (code : Int) : String :=
  match reasonToStringMap.find? (fun p => p.1 == code) with
  | some p => p.2
  | none => ""

/-- The codes present in the registry, in declaration order. -/
def reasonKeys : List Int := reasonToStringMap.map Prod.fst

/-- Embeds revokeBySerial: validate the reason code (panicking on an
invalid one, exactly as the code does), look the serial up in the store,
parse the DER, look up the OS user, call the remote revocation authority,
and on success write the audit line. When user.Current() fails the user
is nil and evaluating u.Username for the remote call arguments
dereferences nil, so the run panics before the remote call; when it
succeeds, its error value is dead, overwritten by the result of the
remote call without ever being examined. Returns the outcome together
with the trace of side effects. -/
def revokeBySerial (env : Env) (serial : String) (reasonCode : Int) :
    Outcome × List Event :=
  if reasonCode < 0 ∨ reasonCode = 7 ∨ reasonCode > 10 then
    (.panicked ("Invalid reason code: " ++ toString reasonCode), [])
  else
    match selectCertificate env serial with
    | none =>
      (.err (.notFound ("certificate with serial \"" ++ serial ++ "\" not found")),
       [.selectCertificate serial])
    | some certObj =>
      match parseCertificate certObj.der with
      | .error m => (.err (.parseError m), [.selectCertificate serial])
      | .ok cert =>
        -- u, err := user.Current(), then u.Username in the call arguments
        match env.userErr with
        | some _ =>
          (.panicked ("runtime error: invalid memory address or nil pointer dereference"),
           [.selectCertificate serial])
        | none =>
          match env.remote cert reasonCode env.userName with
          | some m =>
            (.err (.remoteError m),
             [.selectCertificate serial,
              .remoteRevoke cert reasonCode env.userName (some m)])
          | none =>
            (.ok,
             [.selectCertificate serial,
              .remoteRevoke cert reasonCode env.userName none,
              .auditLog ("Revoked certificate " ++ serial ++ " with reason \x27"
                         ++ reasonToString reasonCode ++ "\x27")])

/-- Embeds the SELECT serial FROM certificates WHERE registrationID query
of revokeByReg: the serials owned by regID, in the enumeration order of
the store. -/
def selectSerialsByReg (env : Env) (regID : Int) : List String :=
  (env.store.filter (fun r => r.registrationID == regID)).map CertRecord.serial

/-- The loop body of revokeByReg: revoke each enumerated serial in
order, stopping at the first non-ok outcome. -/
def revokeByRegLoop (env : Env) (reasonCode : Int) : List String → Outcome × List Event
  | [] => (.ok, [])
  | s :: rest =>
    match revokeBySerial env s reasonCode with
    | (.ok, evs) =>
      let r := revokeByRegLoop env reasonCode rest
      (r.1, evs ++ r.2)
    | (o, evs) => (o, evs)

/-- Embeds revokeByReg: enumerate the serials of the registration inside
the transaction, then revoke each in order, stopping at the first
failure. -/
def revokeByReg (env : Env) (regID : Int) (reasonCode : Int) :
    Outcome × List Event :=
  let r := revokeByRegLoop env reasonCode (selectSerialsByReg env regID)
  (r.1, .selectByRegistration regID :: r.2)

/-- Embeds sac.GetRegistration: succeeds iff the registration exists. -/
def getRegistration (env : Env) (regID : Int) : Bool :=
  env.registrations.contains regID

/-- Fate of the local transaction at process end: explicitly committed,
explicitly rolled back, or abandoned (process exits without resolving it,
as after a panic or a failed registration fetch). -/
inductive TxFate where
  | committed
  | rolledBack
  | abandoned
deriving DecidableEq, Repr

/-- The serial-revoke branch of main: begin, revokeBySerial,
rollback-and-exit on error, commit on success. -/
def serialRevokeCommand (env : Env) (serial : String) (reasonCode : Int) :
    TxFate × Outcome × List Event :=
  let r := revokeBySerial env serial reasonCode
  match r.1 with
  | .ok => (.committed, .ok, .beginTx :: r.2 ++ [.commitTx])
  | .err e => (.rolledBack, .err e, .beginTx :: r.2 ++ [.rollbackTx])
  | .panicked m => (.abandoned, .panicked m, .beginTx :: r.2)

/-- The reg-revoke branch of main: begin, fetch the registration
(exiting without commit when absent), revokeByReg, rollback-and-exit on
error, commit on success. -/
def regRevokeCommand (env : Env) (regID : Int) (reasonCode : Int) :
    TxFate × Outcome × List Event :=
  if getRegistration env regID then
    let r := revokeByReg env regID reasonCode
    match r.1 with
    | .ok =>
      (.committed, .ok,
       .beginTx :: .getRegistration regID true :: r.2 ++ [.commitTx])
    | .err e =>
      (.rolledBack, .err e,
       .beginTx :: .getRegistration regID true :: r.2 ++ [.rollbackTx])
    | .panicked m =>
      (.abandoned, .panicked m,
       .beginTx :: .getRegistration regID true :: r.2)
  else
    (.abandoned, .err (.notFound ("registration not found")),
     [.beginTx, .getRegistration regID false])

/-- The auth-revoke branch of main: one remote call, no local
transaction; on success an audit line reporting both counts. -/
def authRevokeCommand (env : Env) (domain : String) :
    Outcome × Option (Int × Int) × List Event :=
  match env.revokeAuthsByDomain domain with
  | .failure m =>
    (.err (.remoteError m), none, [.remoteRevokeAuths domain (.failure m)])
  | .success a p =>
    (.ok, some (a, p),
     [.remoteRevokeAuths domain (.success a p),
      .auditLog ("Revoked " ++ toString p ++ " pending authorizations and "
                 ++ toString a ++ " final authorizations\n")])

/-- The list-reasons branch of main: collect the registry codes in
whatever order map iteration yields (the iter argument), sort them
ascending with sort.Sort, and print each with its label. -/
def listReasonsCommand (iter : List Int) : List (Int × String) :=
  (iter.insertionSort (· ≤ ·)).map (fun k => (k, reasonToString k))

/-- The certificates successfully revoked at the remote authority,
extracted from a trace: the remote calls whose recorded result is
success. -/
def successfulRevokes (evs : List Event) : List Cert :=
  evs.filterMap fun e =>
    match e with
    | .remoteRevoke c _ _ none => some c
    | _ => none

/-- Number of remote certificate revocation calls in a trace. -/
def remoteRevokeCount (evs : List Event) : Nat :=
  (evs.filter fun e =>
    match e with
    | .remoteRevoke _ _ _ _ => true
    | _ => false).length

/-- Number of remote authorization revocation calls in a trace. -/
def remoteAuthCount (evs : List Event) : Nat :=
  (evs.filter fun e =>
    match e with
    | .remoteRevokeAuths _ _ => true
    | _ => false).length

/-- Number of store reads (certificate selects, by serial or by
registration) in a trace. -/
def storeLookupCount (evs : List Event) : Nat :=
  (evs.filter fun e =>
    match e with
    | .selectCertificate _ => true
    | .selectByRegistration _ => true
    | _ => false).length

/-- Number of audit log lines in a trace. -/
def auditCount (evs : List Event) : Nat :=
  (evs.filter fun e =>
    match e with
    | .auditLog _ => true
    | _ => false).length

/-- Three concrete certificates used by the witness environments. -/
def certA : Cert := ⟨1⟩

/-- Second witness certificate. -/
def certB : Cert := ⟨2⟩

/-- Third witness certificate. -/
def certC : Cert := ⟨3⟩

/-- A concrete environment: registration 5 owns three well-formed
certificates, registration 6 owns none, every remote revocation
succeeds, and domain authorization revocation reports counts (2, 1). -/
def envW : Env where
  store := [⟨"aaa", .wellFormed certA, 5⟩, ⟨"bbb", .wellFormed certB, 5⟩,
            ⟨"ccc", .wellFormed certC, 5⟩]
  registrations := [5, 6]
  remote := fun _ _ _ => none
  revokeAuthsByDomain := fun _ => .success 2 1
  userName := "root"
  userErr := none

/-- Like envW, but the remote authority refuses to revoke the second
certificate. -/
def envFail2 : Env :=
  { envW with remote := fun c _ _ => if c.id == 2 then some ("remote refused") else none }

/-- Like envW, but the OS user lookup fails (user.Current() returns a nil
user together with an error). -/
def envNoUser : Env := { envW with userErr := some ("user: lookup failed") }

/-- An invalid reason code makes revokeBySerial panic before any side
effect: the Go code raises panic, not a returned error, and the trace is
empty. -/
theorem revokeBySerial_invalid_panics (env : Env) (s : String) (r : Int)
    (h : r < 0 ∨ r = 7 ∨ r > 10) :
    revokeBySerial env s r = (.panicked ("Invalid reason code: " ++ toString r), []) := by
  unfold revokeBySerial
  rw [if_pos h]

/-- If revokeBySerial returns ok, its trace is exactly the select, the
successful remote call, and the audit line. -/
theorem revokeBySerial_ok_shape (env : Env) (s : String) (r : Int)
    (h : (revokeBySerial env s r).1 = .ok) :
    ∃ c, (revokeBySerial env s r).2 =
      [.selectCertificate s, .remoteRevoke c r env.userName none,
       .auditLog ("Revoked certificate " ++ s ++ " with reason \x27"
                  ++ reasonToString r ++ "\x27")] := by
  by_cases hv : r < 0 ∨ r = 7 ∨ r > 10
  · rw [revokeBySerial_invalid_panics env s r hv] at h
    exact absurd h (by simp)
  · cases hsel : selectCertificate env s with
    | none => simp [revokeBySerial, hv, hsel] at h
    | some rec =>
      cases hparse : parseCertificate rec.der with
      | error m => simp [revokeBySerial, hv, hsel, hparse] at h
      | ok c =>
        cases huser : env.userErr with
        | some e0 => simp [revokeBySerial, hv, hsel, hparse, huser] at h
        | none =>
          cases hrem : env.remote c r env.userName with
          | some m => simp [revokeBySerial, hv, hsel, hparse, huser, hrem] at h
          | none =>
            exact ⟨c, by simp [revokeBySerial, hv, hsel, hparse, huser, hrem]⟩

/-- If revokeBySerial returns an error, no remote revocation in its trace
succeeded and no audit line was written. -/
theorem revokeBySerial_err_shape (env : Env) (s : String) (r : Int) (e : RevErr)
    (h : (revokeBySerial env s r).1 = .err e) :
    successfulRevokes (revokeBySerial env s r).2 = [] ∧
    auditCount (revokeBySerial env s r).2 = 0 := by
  by_cases hv : r < 0 ∨ r = 7 ∨ r > 10
  · rw [revokeBySerial_invalid_panics env s r hv] at h ⊢
    simp [successfulRevokes, auditCount]
  · cases hsel : selectCertificate env s with
    | none =>
      simp [revokeBySerial, hv, hsel, successfulRevokes, auditCount]
    | some rec =>
      cases hparse : parseCertificate rec.der with
      | error m =>
        simp [revokeBySerial, hv, hsel, hparse, successfulRevokes, auditCount]
      | ok c =>
        cases huser : env.userErr with
        | some e0 => simp [revokeBySerial, hv, hsel, hparse, huser] at h
        | none =>
          cases hrem : env.remote c r env.userName with
          | some m =>
            simp [revokeBySerial, hv, hsel, hparse, huser, hrem,
                  successfulRevokes, auditCount]
          | none => simp [revokeBySerial, hv, hsel, hparse, huser, hrem] at h

/-- When every serial in the list revokes successfully, the loop succeeds
and its trace is the concatenation of the per-serial traces, in order. -/
theorem revokeByRegLoop_all_ok (env : Env) (r : Int) (l : List String)
    (h : ∀ s ∈ l, (revokeBySerial env s r).1 = .ok) :
    revokeByRegLoop env r l =
      (.ok, l.flatMap (fun s => (revokeBySerial env s r).2)) := by
  induction l with
  | nil => simp [revokeByRegLoop]
  | cons s rest ih =>
    have hs := h s (List.mem_cons_self s rest)
    have hrest := ih (fun x hx => h x (List.mem_cons_of_mem s hx))
    rcases hp : revokeBySerial env s r with ⟨o, evs⟩
    rw [hp] at hs
    simp only at hs
    subst hs
    simp [revokeByRegLoop, hp, hrest]

/-- When a prefix of the list revokes successfully and the next serial
fails with a returned error, the loop stops there: its outcome is that
error and its trace holds no event from the remaining serials. -/
theorem revokeByRegLoop_first_err (env : Env) (r : Int)
    (pre : List String) (sk : String) (post : List String) (e : RevErr)
    (hpre : ∀ s ∈ pre, (revokeBySerial env s r).1 = .ok)
    (hk : (revokeBySerial env sk r).1 = .err e) :
    revokeByRegLoop env r (pre ++ sk :: post) =
      (.err e, pre.flatMap (fun s => (revokeBySerial env s r).2)
                ++ (revokeBySerial env sk r).2) := by
  induction pre with
  | nil =>
    rcases hp : revokeBySerial env sk r with ⟨o, evs⟩
    rw [hp] at hk
    simp only at hk
    subst hk
    simp [revokeByRegLoop, hp]
  | cons s rest ih =>
    have hs := hpre s (List.mem_cons_self s rest)
    have hrest := ih (fun x hx => hpre x (List.mem_cons_of_mem s hx))
    rcases hp : revokeBySerial env s r with ⟨o, evs⟩
    rw [hp] at hs
    simp only at hs
    subst hs
    simp [revokeByRegLoop, hp, hrest]

/-- If the loop returns ok then every serial in the list revoked
successfully. -/
theorem revokeByRegLoop_ok_all (env : Env) (r : Int) (l : List String)
    (h : (revokeByRegLoop env r l).1 = .ok) :
    ∀ s ∈ l, (revokeBySerial env s r).1 = .ok := by
  induction l with
  | nil => intro s hs; exact absurd hs (List.not_mem_nil s)
  | cons s rest ih =>
    intro x hx
    rcases hp : revokeBySerial env s r with ⟨o, evs⟩
    cases o with
    | ok =>
      rcases List.mem_cons.mp hx with hx1 | hx2
      · subst hx1; rw [hp]
      · refine ih ?_ x hx2
        rw [revokeByRegLoop, hp] at h
        simpa using h
    | err e =>
      rw [revokeByRegLoop, hp] at h
      simp at h
    | panicked m =>
      rw [revokeByRegLoop, hp] at h
      simp at h

/-- Remote call counting distributes over trace concatenation. -/
theorem remoteRevokeCount_append (a b : List Event) :
    remoteRevokeCount (a ++ b) = remoteRevokeCount a + remoteRevokeCount b := by
  simp [remoteRevokeCount, List.filter_append]

/-- Successful revocations distribute over trace concatenation. -/
theorem successfulRevokes_append (a b : List Event) :
    successfulRevokes (a ++ b) = successfulRevokes a ++ successfulRevokes b := by
  simp [successfulRevokes, List.filterMap_append]

/-- A successful per-serial run performs exactly one remote call, exactly
one successful revocation, and exactly one audit line. -/
theorem revokeBySerial_ok_counts (env : Env) (s : String) (r : Int)
    (h : (revokeBySerial env s r).1 = .ok) :
    remoteRevokeCount (revokeBySerial env s r).2 = 1 ∧
    (successfulRevokes (revokeBySerial env s r).2).length = 1 ∧
    auditCount (revokeBySerial env s r).2 = 1 := by
  obtain ⟨c, hc⟩ := revokeBySerial_ok_shape env s r h
  rw [hc]
  simp [remoteRevokeCount, successfulRevokes, auditCount]

/-- Over a list of serials that all revoke successfully, the combined
trace holds one remote call per serial. -/
theorem remoteRevokeCount_flatMap_ok (env : Env) (r : Int) (l : List String)
    (h : ∀ s ∈ l, (revokeBySerial env s r).1 = .ok) :
    remoteRevokeCount (l.flatMap (fun s => (revokeBySerial env s r).2)) = l.length := by
  induction l with
  | nil => simp [remoteRevokeCount]
  | cons s rest ih =>
    have hs := (revokeBySerial_ok_counts env s r (h s (List.mem_cons_self s rest))).1
    have hrest := ih (fun x hx => h x (List.mem_cons_of_mem s hx))
    simp [List.flatMap_cons, remoteRevokeCount_append, hs, hrest, Nat.add_comm]

/-- Over a list of serials that all revoke successfully, the combined
trace holds one successful revocation per serial. -/
theorem successfulRevokes_flatMap_ok (env : Env) (r : Int) (l : List String)
    (h : ∀ s ∈ l, (revokeBySerial env s r).1 = .ok) :
    (successfulRevokes (l.flatMap (fun s => (revokeBySerial env s r).2))).length
      = l.length := by
  induction l with
  | nil => simp [successfulRevokes]
  | cons s rest ih =>
    have hs := (revokeBySerial_ok_counts env s r (h s (List.mem_cons_self s rest))).2.1
    have hrest := ih (fun x hx => h x (List.mem_cons_of_mem s hx))
    simp [List.flatMap_cons, successfulRevokes_append, hs, hrest, Nat.add_comm]

/-- C3 counterexample: at reason code 7 the code does not return the
typed InvalidReason error to its caller; it panics, as the concrete run
shows. -/
theorem revokeBySerial_reason7_panics_not_err :
    (revokeBySerial envW "aaa" 7).1 ≠ Outcome.err RevErr.invalidReason ∧
    (revokeBySerial envW "aaa" 7).1 = Outcome.panicked ("Invalid reason code: 7") := by
  decide

/-- C3 (amended): for every reason code equal to 7, negative, or greater
than 10, revokeBySerial panics with the message Invalid reason code and
takes no further action: no store lookup, no remote call, no audit
record. -/
theorem revokeBySerial_invalid_reason_behavior (env : Env) (s : String) (r : Int)
    (h : r < 0 ∨ r = 7 ∨ r > 10) :
    revokeBySerial env s r = (.panicked ("Invalid reason code: " ++ toString r), []) ∧
    storeLookupCount (revokeBySerial env s r).2 = 0 ∧
    remoteRevokeCount (revokeBySerial env s r).2 = 0 ∧
    auditCount (revokeBySerial env s r).2 = 0 := by
  have heq := revokeBySerial_invalid_panics env s r h
  refine ⟨heq, ?_, ?_, ?_⟩ <;>
    rw [heq] <;> simp [storeLookupCount, remoteRevokeCount, auditCount]

/-- Witness for C3 at reason code 11. -/
theorem revokeBySerial_invalid_reason_behavior_witness :
    revokeBySerial envW "bbb" 11
      = (.panicked ("Invalid reason code: " ++ toString (11 : Int)), []) ∧
    storeLookupCount (revokeBySerial envW "bbb" 11).2 = 0 ∧
    remoteRevokeCount (revokeBySerial envW "bbb" 11).2 = 0 ∧
    auditCount (revokeBySerial envW "bbb" 11).2 = 0 :=
  revokeBySerial_invalid_reason_behavior envW "bbb" 11 (by decide)

/-- C5: for every serial absent from the certificate store, revokeBySerial
with a valid reason code returns NotFound and performs zero remote revoke
calls. -/
theorem revokeBySerial_absent_notFound (env : Env) (s : String) (r : Int)
    (hv : ¬(r < 0 ∨ r = 7 ∨ r > 10))
    (habs : selectCertificate env s = none) :
    revokeBySerial env s r =
      (.err (.notFound ("certificate with serial \"" ++ s ++ "\" not found")),
       [.selectCertificate s]) ∧
    remoteRevokeCount (revokeBySerial env s r).2 = 0 := by
  have heq : revokeBySerial env s r =
      (.err (.notFound ("certificate with serial \"" ++ s ++ "\" not found")),
       [.selectCertificate s]) := by
    simp [revokeBySerial, hv, habs]
  exact ⟨heq, by rw [heq]; simp [remoteRevokeCount]⟩

/-- Witness for C5 on the absent serial zzz. -/
theorem revokeBySerial_absent_notFound_witness :
    revokeBySerial envW "zzz" 0 =
      (.err (.notFound ("certificate with serial \"" ++ "zzz" ++ "\" not found")),
       [.selectCertificate "zzz"]) ∧
    remoteRevokeCount (revokeBySerial envW "zzz" 0).2 = 0 :=
  revokeBySerial_absent_notFound envW "zzz" 0 (by decide) (by decide)

/-- C6: for every serial present in the store whose stored bytes decode,
revokeBySerial with a valid reason code (and a successful OS user
lookup, the normal-operation precondition for reaching the remote step)
performs exactly one remote revoke call, passing the decoded certificate
and the supplied reason; on remote success it emits exactly one audit
record with the serial and the canonical reason label, and on remote
failure it emits no audit record. -/
theorem revokeBySerial_present_spec (env : Env) (s : String) (r : Int)
    (rec : CertRecord) (c : Cert)
    (hv : ¬(r < 0 ∨ r = 7 ∨ r > 10))
    (hfind : selectCertificate env s = some rec)
    (hparse : parseCertificate rec.der = .ok c)
    (huser : env.userErr = none) :
    remoteRevokeCount (revokeBySerial env s r).2 = 1 ∧
    (env.remote c r env.userName = none →
      revokeBySerial env s r =
        (.ok, [.selectCertificate s, .remoteRevoke c r env.userName none,
               .auditLog ("Revoked certificate " ++ s ++ " with reason \x27"
                          ++ reasonToString r ++ "\x27")]) ∧
      auditCount (revokeBySerial env s r).2 = 1) ∧
    (∀ m, env.remote c r env.userName = some m →
      revokeBySerial env s r =
        (.err (.remoteError m),
         [.selectCertificate s, .remoteRevoke c r env.userName (some m)]) ∧
      auditCount (revokeBySerial env s r).2 = 0) := by
  cases hrem : env.remote c r env.userName with
  | none =>
    have heq : revokeBySerial env s r =
        (.ok, [.selectCertificate s, .remoteRevoke c r env.userName none,
               .auditLog ("Revoked certificate " ++ s ++ " with reason \x27"
                          ++ reasonToString r ++ "\x27")]) := by
      simp [revokeBySerial, hv, hfind, hparse, huser, hrem]
    refine ⟨by rw [heq]; simp [remoteRevokeCount],
            fun _ => ⟨heq, by rw [heq]; simp [auditCount]⟩,
            fun m hm => absurd hm (by simp)⟩
  | some m0 =>
    have heq : revokeBySerial env s r =
        (.err (.remoteError m0),
         [.selectCertificate s, .remoteRevoke c r env.userName (some m0)]) := by
      simp [revokeBySerial, hv, hfind, hparse, huser, hrem]
    refine ⟨by rw [heq]; simp [remoteRevokeCount],
            fun hnone => absurd hnone (by simp),
            fun m hm => ?_⟩
    have hm0 : m0 = m := by injection hm
    subst hm0
    exact ⟨heq, by rw [heq]; simp [auditCount]⟩

/-- Witness for C6 on the present serial aaa with reason 1. -/
theorem revokeBySerial_present_spec_witness :
    remoteRevokeCount (revokeBySerial envW "aaa" 1).2 = 1 ∧
    revokeBySerial envW "aaa" 1 =
      (.ok, [.selectCertificate "aaa", .remoteRevoke certA 1 envW.userName none,
             .auditLog ("Revoked certificate " ++ "aaa" ++ " with reason \x27"
                        ++ reasonToString 1 ++ "\x27")]) ∧
    auditCount (revokeBySerial envW "aaa" 1).2 = 1 := by
  have h := revokeBySerial_present_spec envW "aaa" 1
    ⟨"aaa", .wellFormed certA, 5⟩ certA (by decide) rfl rfl rfl
  exact ⟨h.1, (h.2.1 rfl).1, (h.2.1 rfl).2⟩

/-- C9 counterexample: a failed OS-user lookup is not inert. On the same
store, serial and reason, the run with the failing lookup panics with the
nil-pointer dereference before any remote call, while the run with a
successful lookup succeeds: the outcome of the operation does depend on
the lookup result, and on the failure path the lookup error value is
never overwritten by any remote call result because no remote call is
ever made. -/
theorem revokeBySerial_userErr_not_inert :
    revokeBySerial envNoUser "aaa" 1 ≠ revokeBySerial envW "aaa" 1 ∧
    (revokeBySerial envNoUser "aaa" 1).1
      = .panicked ("runtime error: invalid memory address or nil pointer dereference") ∧
    remoteRevokeCount (revokeBySerial envNoUser "aaa" 1).2 = 0 ∧
    (revokeBySerial envW "aaa" 1).1 = .ok := by
  decide

/-- C9 (amended): every remote revoke call carries the current OS
username as administrator identity, and reaching the remote step implies
the OS-user lookup succeeded; the lookup error value itself is never
examined or returned as the operation error value — instead, a failed
lookup crashes the run with a nil-pointer dereference panic before the
remote call, because u.Username is evaluated on the nil user while that
error is still unexamined. -/
theorem revokeBySerial_admin_identity (env : Env) (s : String) (r : Int) :
    (∀ c rc a res, Event.remoteRevoke c rc a res ∈ (revokeBySerial env s r).2 →
      a = env.userName ∧ env.userErr = none) ∧
    (∀ e rec c, env.userErr = some e →
      ¬(r < 0 ∨ r = 7 ∨ r > 10) →
      selectCertificate env s = some rec →
      parseCertificate rec.der = .ok c →
      revokeBySerial env s r =
        (.panicked ("runtime error: invalid memory address or nil pointer dereference"),
         [.selectCertificate s])) := by
  constructor
  · intro c rc a res hmem
    by_cases hv : r < 0 ∨ r = 7 ∨ r > 10
    · rw [revokeBySerial_invalid_panics env s r hv] at hmem
      simp at hmem
    · cases hsel : selectCertificate env s with
      | none => simp [revokeBySerial, hv, hsel] at hmem
      | some rec =>
        cases hparse : parseCertificate rec.der with
        | error m => simp [revokeBySerial, hv, hsel, hparse] at hmem
        | ok cc =>
          cases huser : env.userErr with
          | some e0 => simp [revokeBySerial, hv, hsel, hparse, huser] at hmem
          | none =>
            cases hrem : env.remote cc r env.userName with
            | some m =>
              simp [revokeBySerial, hv, hsel, hparse, huser, hrem] at hmem
              exact ⟨hmem.2.2.1, rfl⟩
            | none =>
              simp [revokeBySerial, hv, hsel, hparse, huser, hrem] at hmem
              exact ⟨hmem.2.2.1, rfl⟩
  · intro e rec c huser hv hsel hparse
    simp [revokeBySerial, hv, hsel, hparse, huser]

/-- Witness for C9: the admin identity on the recorded remote call of a
successful run is the OS username root with a successful lookup, and the
same invocation under a failed lookup panics with the nil dereference
before the remote call. -/
theorem revokeBySerial_admin_identity_witness :
    ("root" = envW.userName ∧ envW.userErr = none) ∧
    revokeBySerial envNoUser "bbb" 1 =
      (.panicked ("runtime error: invalid memory address or nil pointer dereference"),
       [.selectCertificate "bbb"]) :=
  ⟨(revokeBySerial_admin_identity envW "bbb" 1).1 certB 1 "root" none (by decide),
   (revokeBySerial_admin_identity envNoUser "bbb" 1).2 "user: lookup failed"
     ⟨"bbb", .wellFormed certB, 5⟩ certB rfl (by decide) rfl rfl⟩

/-- The command wrapper events around a committed cascade do not add
remote calls. -/
theorem remoteRevokeCount_commit_frame (rid : Int) (X : List Event) :
    remoteRevokeCount (.beginTx :: .getRegistration rid true ::
      .selectByRegistration rid :: (X ++ [.commitTx])) = remoteRevokeCount X := by
  show remoteRevokeCount ([.beginTx, .getRegistration rid true,
    .selectByRegistration rid] ++ (X ++ [.commitTx])) = _
  rw [remoteRevokeCount_append, remoteRevokeCount_append]
  simp [remoteRevokeCount]

/-- The command wrapper events around a rolled-back cascade do not add
successful revocations. -/
theorem successfulRevokes_rollback_frame (rid : Int) (X : List Event) :
    successfulRevokes (.beginTx :: .getRegistration rid true ::
      .selectByRegistration rid :: (X ++ [.rollbackTx])) = successfulRevokes X := by
  show successfulRevokes ([.beginTx, .getRegistration rid true,
    .selectByRegistration rid] ++ (X ++ [.rollbackTx])) = _
  rw [successfulRevokes_append, successfulRevokes_append]
  simp [successfulRevokes]

/-- C1: the reg-revoke command revokes once per certificate in the
enumeration order of the store; when all succeed the transaction commits
and the trace is the ordered concatenation of the per-certificate traces
with one remote call each; on the first returned failure the loop stops
(no event of a later certificate appears) and the transaction is rolled
back; and the transaction commits only if every enumerated certificate
succeeded. -/
theorem regRevokeCommand_cascade (env : Env) (regID r : Int)
    (hreg : getRegistration env regID = true) :
    ((∀ s ∈ selectSerialsByReg env regID, (revokeBySerial env s r).1 = .ok) →
      regRevokeCommand env regID r =
        (.committed, .ok,
         .beginTx :: .getRegistration regID true :: .selectByRegistration regID ::
           ((selectSerialsByReg env regID).flatMap (fun s => (revokeBySerial env s r).2)
             ++ [.commitTx])) ∧
      remoteRevokeCount (regRevokeCommand env regID r).2.2
        = (selectSerialsByReg env regID).length) ∧
    (∀ pre sk post e, selectSerialsByReg env regID = pre ++ sk :: post →
      (∀ s ∈ pre, (revokeBySerial env s r).1 = .ok) →
      (revokeBySerial env sk r).1 = .err e →
      regRevokeCommand env regID r =
        (.rolledBack, .err e,
         .beginTx :: .getRegistration regID true :: .selectByRegistration regID ::
           (pre.flatMap (fun s => (revokeBySerial env s r).2)
             ++ (revokeBySerial env sk r).2 ++ [.rollbackTx]))) ∧
    ((regRevokeCommand env regID r).1 = .committed →
      ∀ s ∈ selectSerialsByReg env regID, (revokeBySerial env s r).1 = .ok) := by
  refine ⟨fun hall => ?_, fun pre sk post e hdec hpre hk => ?_, fun hcom => ?_⟩
  · have hloop := revokeByRegLoop_all_ok env r _ hall
    have hcmd : regRevokeCommand env regID r =
        (.committed, .ok,
         .beginTx :: .getRegistration regID true :: .selectByRegistration regID ::
           ((selectSerialsByReg env regID).flatMap (fun s => (revokeBySerial env s r).2)
             ++ [.commitTx])) := by
      simp [regRevokeCommand, hreg, revokeByReg, hloop]
    refine ⟨hcmd, ?_⟩
    rw [hcmd]
    show remoteRevokeCount (.beginTx :: .getRegistration regID true ::
      .selectByRegistration regID ::
        ((selectSerialsByReg env regID).flatMap (fun s => (revokeBySerial env s r).2)
          ++ [.commitTx])) = _
    rw [remoteRevokeCount_commit_frame, remoteRevokeCount_flatMap_ok env r _ hall]
  · have hloop := revokeByRegLoop_first_err env r pre sk post e hpre hk
    have hloop2 : revokeByRegLoop env r (selectSerialsByReg env regID) =
        (.err e, pre.flatMap (fun s => (revokeBySerial env s r).2)
                  ++ (revokeBySerial env sk r).2) := by
      rw [hdec, hloop]
    simp [regRevokeCommand, hreg, revokeByReg, hloop2]
  · by_cases hr : (revokeByRegLoop env r (selectSerialsByReg env regID)).1 = .ok
    · exact revokeByRegLoop_ok_all env r _ hr
    · exfalso
      rcases hloop : revokeByRegLoop env r (selectSerialsByReg env regID) with ⟨o, evs⟩
      rw [hloop] at hr
      cases o with
      | ok => exact hr rfl
      | err e => simp [regRevokeCommand, hreg, revokeByReg, hloop] at hcom
      | panicked m => simp [regRevokeCommand, hreg, revokeByReg, hloop] at hcom

/-- Witness for C1: all three certificates of registration 5 revoke
successfully, the command commits, and there are three remote calls. -/
theorem regRevokeCommand_cascade_witness :
    regRevokeCommand envW 5 0 =
      (.committed, .ok,
       .beginTx :: .getRegistration 5 true :: .selectByRegistration 5 ::
         ((selectSerialsByReg envW 5).flatMap (fun s => (revokeBySerial envW s 0).2)
           ++ [.commitTx])) ∧
    remoteRevokeCount (regRevokeCommand envW 5 0).2.2
      = (selectSerialsByReg envW 5).length :=
  (regRevokeCommand_cascade envW 5 0 (by decide)).1 (by decide)

/-- C2: after a partial failure of the cascade the transaction is rolled
back, but the successful remote revocations are exactly those issued for
the certificates processed before the failing one; the rollback undoes
none of them. -/
theorem regRevokeCommand_partial_failure (env : Env) (regID r : Int)
    (pre : List String) (sk : String) (post : List String) (e : RevErr)
    (hreg : getRegistration env regID = true)
    (hdec : selectSerialsByReg env regID = pre ++ sk :: post)
    (hpre : ∀ s ∈ pre, (revokeBySerial env s r).1 = .ok)
    (hk : (revokeBySerial env sk r).1 = .err e) :
    (regRevokeCommand env regID r).1 = .rolledBack ∧
    successfulRevokes (regRevokeCommand env regID r).2.2 =
      successfulRevokes (pre.flatMap (fun s => (revokeBySerial env s r).2)) ∧
    (successfulRevokes (regRevokeCommand env regID r).2.2).length = pre.length := by
  have hloop := revokeByRegLoop_first_err env r pre sk post e hpre hk
  have hloop2 : revokeByRegLoop env r (selectSerialsByReg env regID) =
      (.err e, pre.flatMap (fun s => (revokeBySerial env s r).2)
                ++ (revokeBySerial env sk r).2) := by
    rw [hdec, hloop]
  have hcmd : regRevokeCommand env regID r =
      (.rolledBack, .err e,
       .beginTx :: .getRegistration regID true :: .selectByRegistration regID ::
         (pre.flatMap (fun s => (revokeBySerial env s r).2)
           ++ (revokeBySerial env sk r).2 ++ [.rollbackTx])) := by
    simp [regRevokeCommand, hreg, revokeByReg, hloop2]
  have hsucc : successfulRevokes (regRevokeCommand env regID r).2.2 =
      successfulRevokes (pre.flatMap (fun s => (revokeBySerial env s r).2)) := by
    rw [hcmd]
    show successfulRevokes (.beginTx :: .getRegistration regID true ::
      .selectByRegistration regID ::
        ((pre.flatMap (fun s => (revokeBySerial env s r).2)
           ++ (revokeBySerial env sk r).2) ++ [.rollbackTx])) = _
    rw [successfulRevokes_rollback_frame, successfulRevokes_append,
        (revokeBySerial_err_shape env sk r e hk).1, List.append_nil]
  refine ⟨by rw [hcmd], hsucc, ?_⟩
  rw [hsucc, successfulRevokes_flatMap_ok env r pre hpre]

/-- Witness for C2: with the remote refusing the second certificate, the
transaction is rolled back and exactly the first certificate remains
revoked remotely. -/
theorem regRevokeCommand_partial_failure_witness :
    (regRevokeCommand envFail2 5 0).1 = .rolledBack ∧
    successfulRevokes (regRevokeCommand envFail2 5 0).2.2 =
      successfulRevokes ((["aaa"] : List String).flatMap
        (fun s => (revokeBySerial envFail2 s 0).2)) ∧
    (successfulRevokes (regRevokeCommand envFail2 5 0).2.2).length
      = (["aaa"] : List String).length :=
  regRevokeCommand_partial_failure envFail2 5 0 ["aaa"] "bbb" ["ccc"]
    (.remoteError ("remote refused")) (by decide) (by decide) (by decide) (by decide)

/-- C10: a registration that owns zero certificates cascades vacuously:
the command succeeds, performs zero remote calls and commits, for every
reason code, because reason validation only happens per enumerated
certificate. -/
theorem regRevokeCommand_zero_certs (env : Env) (regID r : Int)
    (hreg : getRegistration env regID = true)
    (hempty : selectSerialsByReg env regID = []) :
    regRevokeCommand env regID r =
      (.committed, .ok,
       [.beginTx, .getRegistration regID true, .selectByRegistration regID,
        .commitTx]) ∧
    remoteRevokeCount (regRevokeCommand env regID r).2.2 = 0 := by
  have hcmd : regRevokeCommand env regID r =
      (.committed, .ok,
       [.beginTx, .getRegistration regID true, .selectByRegistration regID,
        .commitTx]) := by
    simp [regRevokeCommand, hreg, revokeByReg, hempty, revokeByRegLoop]
  exact ⟨hcmd, by rw [hcmd]; simp [remoteRevokeCount]⟩

/-- Witness for C10: registration 6 owns no certificates, and even with
the invalid reason code 7 the command commits with zero remote calls. -/
theorem regRevokeCommand_zero_certs_witness :
    regRevokeCommand envW 6 7 =
      (.committed, .ok,
       [.beginTx, .getRegistration 6 true, .selectByRegistration 6, .commitTx]) ∧
    remoteRevokeCount (regRevokeCommand envW 6 7).2.2 = 0 :=
  regRevokeCommand_zero_certs envW 6 7 (by decide) (by decide)

/-- C4 counterexample: invoking reg-revoke with the invalid reason code 7
on a registration that owns certificates still reads certificate records
from the store (the enumeration query) and still calls the storage
authority for the registration, before validation ever runs. -/
theorem regRevoke_invalid_reason_still_reads_store :
    Event.selectByRegistration 5 ∈ (regRevokeCommand envW 5 7).2.2 ∧
    Event.getRegistration 5 true ∈ (regRevokeCommand envW 5 7).2.2 ∧
    0 < storeLookupCount (regRevokeCommand envW 5 7).2.2 := by
  decide

/-- C4 (amended): with an invalid reason code revokeBySerial fails before
any side effect, and the reg-revoke command performs no remote revoke
call, reads no individual certificate record and writes no audit line;
but the registration fetch and the certificate enumeration query do run
before validation, which happens per enumerated certificate. -/
theorem invalid_reason_effects (env : Env) (s : String) (regID r : Int)
    (h : r < 0 ∨ r = 7 ∨ r > 10) :
    (revokeBySerial env s r).2 = [] ∧
    remoteRevokeCount (regRevokeCommand env regID r).2.2 = 0 ∧
    (∀ ser, Event.selectCertificate ser ∉ (regRevokeCommand env regID r).2.2) ∧
    auditCount (regRevokeCommand env regID r).2.2 = 0 := by
  have hsh : (regRevokeCommand env regID r).2.2 = [.beginTx, .getRegistration regID false]
      ∨ (regRevokeCommand env regID r).2.2
          = [.beginTx, .getRegistration regID true, .selectByRegistration regID,
             .commitTx]
      ∨ (regRevokeCommand env regID r).2.2
          = [.beginTx, .getRegistration regID true, .selectByRegistration regID] := by
    by_cases hreg : getRegistration env regID
    · cases hl : selectSerialsByReg env regID with
      | nil =>
        right; left
        simp [regRevokeCommand, hreg, revokeByReg, hl, revokeByRegLoop]
      | cons s0 rest =>
        right; right
        have hloop : revokeByRegLoop env r (s0 :: rest)
            = (.panicked ("Invalid reason code: " ++ toString r), []) := by
          simp [revokeByRegLoop, revokeBySerial_invalid_panics env s0 r h]
        simp [regRevokeCommand, hreg, revokeByReg, hl, hloop]
    · left
      simp [regRevokeCommand, hreg]
  refine ⟨by rw [revokeBySerial_invalid_panics env s r h], ?_, ?_, ?_⟩ <;>
    rcases hsh with h1 | h1 | h1 <;> rw [h1] <;>
      simp [remoteRevokeCount, auditCount]

/-- Witness for C4 at reason code 7 on registration 5. -/
theorem invalid_reason_effects_witness :
    (revokeBySerial envW "aaa" 7).2 = [] ∧
    remoteRevokeCount (regRevokeCommand envW 5 7).2.2 = 0 ∧
    Event.selectCertificate "aaa" ∉ (regRevokeCommand envW 5 7).2.2 ∧
    auditCount (regRevokeCommand envW 5 7).2.2 = 0 := by
  have h := invalid_reason_effects envW "aaa" 5 7 (by decide)
  exact ⟨h.1, h.2.1, h.2.2.1 "aaa", h.2.2.2⟩

/-- C7: the auth-revoke command makes exactly one remote call, opens no
local transaction, reads nothing from the store, and surfaces the two
counts reported by the remote unchanged; a remote failure is surfaced as
the remote error. Zero counts are an ordinary success. -/
theorem authRevokeCommand_spec (env : Env) (domain : String) :
    (∀ a p, env.revokeAuthsByDomain domain = .success a p →
      authRevokeCommand env domain =
        (.ok, some (a, p),
         [.remoteRevokeAuths domain (.success a p),
          .auditLog ("Revoked " ++ toString p ++ " pending authorizations and "
                     ++ toString a ++ " final authorizations\n")])) ∧
    (∀ m, env.revokeAuthsByDomain domain = .failure m →
      authRevokeCommand env domain =
        (.err (.remoteError m), none,
         [.remoteRevokeAuths domain (.failure m)])) ∧
    remoteAuthCount (authRevokeCommand env domain).2.2 = 1 ∧
    Event.beginTx ∉ (authRevokeCommand env domain).2.2 ∧
    storeLookupCount (authRevokeCommand env domain).2.2 = 0 := by
  cases hr : env.revokeAuthsByDomain domain with
  | failure m =>
    have hcmd : authRevokeCommand env domain =
        (.err (.remoteError m), none,
         [.remoteRevokeAuths domain (.failure m)]) := by
      simp [authRevokeCommand, hr]
    refine ⟨fun a p hp => absurd hp (by simp), fun m2 hm2 => ?_, ?_, ?_, ?_⟩
    · have hmm : m = m2 := by injection hm2
      subst hmm
      exact hcmd
    · rw [hcmd]; simp [remoteAuthCount]
    · rw [hcmd]; simp
    · rw [hcmd]; simp [storeLookupCount]
  | success a0 p0 =>
    have hcmd : authRevokeCommand env domain =
        (.ok, some (a0, p0),
         [.remoteRevokeAuths domain (.success a0 p0),
          .auditLog ("Revoked " ++ toString p0 ++ " pending authorizations and "
                     ++ toString a0 ++ " final authorizations\n")]) := by
      simp [authRevokeCommand, hr]
    refine ⟨fun a p hp => ?_, fun m2 hm2 => absurd hm2 (by simp), ?_, ?_, ?_⟩
    · have ha : a0 = a := by injection hp
      have hpp : p0 = p := by injection hp
      subst ha; subst hpp
      exact hcmd
    · rw [hcmd]; simp [remoteAuthCount]
    · rw [hcmd]; simp
    · rw [hcmd]; simp [storeLookupCount]

/-- Witness for C7: the stub reports counts (2, 1) and the command
surfaces them unchanged with a single remote call and no transaction. -/
theorem authRevokeCommand_spec_witness :
    authRevokeCommand envW "example.invalid" =
      (.ok, some (2, 1),
       [.remoteRevokeAuths "example.invalid" (.success 2 1),
        .auditLog ("Revoked " ++ toString (1 : Int) ++ " pending authorizations and "
                   ++ toString (2 : Int) ++ " final authorizations\n")]) ∧
    remoteAuthCount (authRevokeCommand envW "example.invalid").2.2 = 1 ∧
    Event.beginTx ∉ (authRevokeCommand envW "example.invalid").2.2 ∧
    storeLookupCount (authRevokeCommand envW "example.invalid").2.2 = 0 := by
  have h := authRevokeCommand_spec envW "example.invalid"
  exact ⟨h.1 2 1 rfl, h.2.2.1, h.2.2.2.1, h.2.2.2.2⟩

/-- C8: whatever order map iteration presents the registry codes in, the
list-reasons command returns the (code, label) entries sorted ascending
by code, without duplicates, and the reserved code 7 never appears. -/
theorem listReasonsCommand_sorted_no7 (iter : List Int)
    (hperm : iter.Perm reasonKeys) :
    List.Sorted (· ≤ ·) ((listReasonsCommand iter).map Prod.fst) ∧
    ((listReasonsCommand iter).map Prod.fst).Nodup ∧
    ∀ p ∈ listReasonsCommand iter, p.1 ≠ 7 := by
  have hmap : (listReasonsCommand iter).map Prod.fst
      = iter.insertionSort (· ≤ ·) := by
    simp [listReasonsCommand, List.map_map, Function.comp_def]
  have hperm2 : (iter.insertionSort (· ≤ ·)).Perm reasonKeys :=
    (List.perm_insertionSort _ _).trans hperm
  refine ⟨?_, ?_, ?_⟩
  · rw [hmap]
    exact List.sorted_insertionSort _ _
  · rw [hmap]
    exact hperm2.nodup_iff.mpr (by decide)
  · intro p hp
    rcases List.mem_map.mp hp with ⟨k, hk, rfl⟩
    intro hk7
    have h7 : (7 : Int) ∉ reasonKeys := by decide
    exact h7 (hk7 ▸ hperm2.subset hk)

/-- Witness for C8 on the reversed iteration order. -/
theorem listReasonsCommand_sorted_no7_witness :
    List.Sorted (· ≤ ·)
      ((listReasonsCommand [10, 9, 8, 6, 5, 4, 3, 2, 1, 0]).map Prod.fst) ∧
    ((listReasonsCommand [10, 9, 8, 6, 5, 4, 3, 2, 1, 0]).map Prod.fst).Nodup ∧
    ((0 : Int), "unspecified").1 ≠ 7 := by
  have h := listReasonsCommand_sorted_no7 [10, 9, 8, 6, 5, 4, 3, 2, 1, 0] (by decide)
  exact ⟨h.1, h.2.1, h.2.2 (0, "unspecified") (by decide)⟩
